import Mathlib

/-!
Shallow embedding of `virttest/env_process.py` (avocado-vt): the pre/post
processing orchestration engine.  Python dictionaries of test parameters are
modelled as association lists of strings, exceptions as their message
strings, and the external collaborators (image backend, VM handle, guest
filesystem editor, monitor) as explicit oracles passed to the embedded
functions.  Machine concurrency is modelled by making each worker's and each
poller's externally visible observations (event states, timestamps, oracle
results) explicit inputs.
-/

namespace EnvProcess

/-- Helper for `pySplitWS`: split a character list on whitespace runs,
dropping empty fields (`acc` holds the current field, reversed). -/
def splitWSAux : List Char → List Char → List String
  | [], acc => if acc.isEmpty then [] else [String.mk acc.reverse]
  | c :: rest, acc =>
    if c.isWhitespace then
      (if acc.isEmpty then [] else [String.mk acc.reverse]) ++ splitWSAux rest []
    else splitWSAux rest (c :: acc)

/-- Python `str.split()` with no argument: split on whitespace runs,
dropping empty fields. -/
def pySplitWS (s : String) : List String :=
  splitWSAux s.toList []

/-- Python `str.strip()`: remove leading and trailing whitespace. -/
def pyStrip (s : String) : String :=
  String.mk
    (((s.toList.dropWhile Char.isWhitespace).reverse.dropWhile
      Char.isWhitespace).reverse)

/-- Split a character list on a separator character (Python
`str.split(sep)`: `""` splits to `[""]`). -/
def splitOnCharAux (sep : Char) : List Char → List (List Char)
  | [] => [[]]
  | c :: rest =>
    if c = sep then [] :: splitOnCharAux sep rest
    else
      match splitOnCharAux sep rest with
      | [] => [[c]]
      | h :: t => (c :: h) :: t

/-- Python `str.split(sep)` for a one-character separator. -/
def pySplitOnChar (sep : Char) (s : String) : List String :=
  (splitOnCharAux sep s.toList).map String.mk

/-- Python `sub in s` for strings: substring containment test. -/
def pyInStr (sub s : String) : Bool :=
  (List.range (s.toList.length + 1)).any
    (fun i => sub.toList.isPrefixOf (s.toList.drop i))

/-- A `params` object: flat string-keyed, string-valued map
(`utils_params.Params`), modelled as an association list. -/
abbrev Params := List (String × String)

/-- `params.get(key)`: `None` when absent. -/
def Params.pyGet (p : Params) (k : String) : Option String :=
  (p.find? (fun kv => kv.1 == k)).map (fun kv => kv.2)

/-- `params.get(key, default)`. -/
def Params.pyGetD (p : Params) (k d : String) : String :=
  (p.pyGet k).getD d

/-- `params.objects(key)`: whitespace-split list of names, `[]` when absent. -/
def Params.objects (p : Params) (k : String) : List String :=
  pySplitWS (p.pyGetD k "")

/-- An exception is modelled by its message. -/
abbrev PyExc := String

/-! ## Image Processing Scheduler (`process_images` and helpers) -/

/-- Python extended slice `l[i::k]` (used for the round-robin partition
`images[i::no_threads]`): the elements at indices `i, i+k, i+2k, ...`,
i.e. the indices `j` with `i ≤ j` and `(j - i) % k = 0`, in order. -/
def pySliceStride (l : List α) (i k : Nat) : List α :=
  ((List.range l.length).filter
    (fun j => decide (i ≤ j) && decide ((j - i) % k = 0))).filterMap l.get?

/-- The per-image processing function (`preprocess_image` /
`postprocess_image` partially applied): `none` models a normal return,
`some e` models raising exception `e`. -/
abbrev ImageFunc := String → Option PyExc

/-- `_process_images_serial`: process the images in their declared order on
the calling thread, propagating the first raise.  `has_event` tells whether
an `exit_event` was passed; `exit_obs` is the externally observed state of
that event after each successfully processed image (it can be set
concurrently by sibling workers).  Returns the list of images for which
`image_func` was invoked and the propagated exception, if any. -/
def _process_images_serial (image_func : ImageFunc) (has_event : Bool)
    (exit_obs : List Bool) : List String → List String × Option PyExc
  | [] => ([], none)
  | image_name :: rest =>
    match image_func image_name with
    | some e => ([image_name], some e)
    | none =>
      if has_event && exit_obs.headD false then ([image_name], none)
      else
        let r := _process_images_serial image_func has_event exit_obs.tail rest
        (image_name :: r.1, r.2)

/-- Outcome of one `_CreateImages` worker thread after it has finished. -/
structure WorkerOutcome where
  exc_info : Option PyExc
  set_exit_event : Bool
  deriving Repr, DecidableEq

/-- `_CreateImages.run`: run the serial processor over the worker's
partition; any exception is captured into `exc_info` and the shared
`exit_event` is set, instead of re-raising in place.  The method itself
never propagates an exception (it is total). -/
def _CreateImages_run (image_func : ImageFunc) (exit_obs : List Bool)
    (images : List String) : WorkerOutcome :=
  let r := (_process_images_serial image_func true exit_obs images).2
  { exc_info := r, set_exit_event := r.isSome }

/-- `no_threads = min(len(images) / 5, 2 * multiprocessing.cpu_count())`
(Python 2 integer division). -/
def no_threads (images : List String) (cpu_count : Nat) : Nat :=
  min (images.length / 5) (2 * cpu_count)

/-- The busy-wait join loop of `_process_images_parallel`: the orchestrator
polls `thread.is_alive()` and proceeds at the earliest time by which every
worker has finished. -/
def joinTime (durations : List Nat) : Nat := durations.foldr max 0

/-- Result of `_process_images_parallel`: the exception it re-raises (if
any) and the time at which control reaches the re-raise point. -/
structure ParallelRun where
  raised : Option PyExc
  raise_time : Nat
  deriving Repr, DecidableEq

/-- `_process_images_parallel`: split `images` into `no_threads` round-robin
partitions `images[i::no_threads]`, start one `_CreateImages` worker per
partition (in partition order), busy-wait until all workers have finished,
then, if the shared exit event was set, re-raise the `exc_info` of the first
thread (in start order) that stored one.  `exit_obs i` is what worker `i`
observes of the shared event while running; `durations` are the workers'
finish times. -/
def _process_images_parallel (image_func : ImageFunc) (images : List String)
    (cpu_count : Nat) (exit_obs : Nat → List Bool) (durations : List Nat) :
    ParallelRun :=
  let k := no_threads images cpu_count
  let threads := (List.range k).map
    (fun i => _CreateImages_run image_func (exit_obs i) (pySliceStride images i k))
  { raised :=
      if threads.any (fun t => t.set_exit_event) then
        threads.findSome? (fun t => t.exc_info)
      else none,
    raise_time := joinTime durations }

/-- The scheduling decision of `process_images`: which images run serially
on the calling thread, or the worker partitions of the parallel path. -/
inductive SchedulePlan
  | serialPlan (images : List String)
  | parallelPlan (partitions : List (List String))
  deriving Repr, DecidableEq

/-- `process_images`: `images = params.objects("images")`; if
`len(images) > 20` process them in parallel over the round-robin partitions
`images[i::no_threads]`, otherwise serially in declared order on the
calling thread. -/
def process_images (params : Params) (cpu_count : Nat) : SchedulePlan :=
  let images := params.objects "images"
  if images.length > 20 then
    .parallelPlan ((List.range (no_threads images cpu_count)).map
      (fun i => pySliceStride images i (no_threads images cpu_count)))
  else .serialPlan images

/-! ## Image reconciliation (`postprocess_image`) -/

/-- Python dict lookup for a dict built by successive insertion (later
entries override earlier ones). -/
def pyDictGet (d : List (String × String)) (k : String) : Option String :=
  (d.reverse.find? (fun kv => kv.1 == k)).map (fun kv => kv.2)

/-- Python `opt.split()` where `opt` may be `None`: `None.split()` raises
`AttributeError` (the pattern `params.get("master_images_clone").split()`). -/
def pySplitOpt : Option String → Except PyExc (List String)
  | none => .error "AttributeError"
  | some s => .ok (pySplitWS s)

/-- Parse `image.info()` output as `postprocess_image` does: keep the
`key:value` lines that split on a colon into exactly two fields, stripping
both sides. -/
def parseImageInfo (out : String) : List (String × String) :=
  (pySplitOnChar '\n' out).filterMap (fun line =>
    match pySplitOnChar ':' line with
    | [k, v] => some (pyStrip k, pyStrip v)
    | _ => none)

/-- The backend actions `postprocess_image` can perform on an image. -/
inductive ImgAction
  | infoQuery
  | check
  | backup
  | restore
  | remove
  deriving Repr, DecidableEq

/-- Oracle for the image-backend collaborator (`qemu_storage.QemuImg`): the
outcome of each backend operation, were it invoked (`none` = normal return,
`some e` = raises `e`; `info_output` is `image.info()`, which the source
only tests against `None` or parses). -/
structure ImgBackend where
  info_output : Option String
  check_exc : Option PyExc
  backup_exc : Option PyExc
  restore_exc : Option PyExc
  remove_exc : Option PyExc

/-- The `vm_process_status == "running"` gate at the top of
`postprocess_image` (lines 270-292): possibly queries `image.info()` and
clears `check_image_flag`. Returns the actions performed and the final
flag. -/
def postprocess_image_running_gate (params : Params)
    (vm_process_status : Option String) (be : ImgBackend) :
    List ImgAction × Bool :=
  let check_image_flag := params.pyGet "check_image" == some "yes"
  if vm_process_status == some "running" && check_image_flag then
    if params.pyGet "skip_image_check_during_running" == some "yes" then
      ([], false)
    else
      match be.info_output with
      | none => ([.infoQuery], false)
      | some out =>
        let image_info := parseImageInfo out
        if pyDictGet image_info "lazy refcounts" == some "true" then
          ([.infoQuery], false)
        else ([.infoQuery], true)
  else ([], check_image_flag)

/-- The body of `postprocess_image`'s `try:` block (lines 295-310): the
clone-gated integrity check followed by the `backup_image` /
`restore_image` step. Returns the actions performed, the final value of
`restored`, and the exception reaching the `except` clause, if any. -/
def postprocess_image_try (params : Params) (image_name : String)
    (be : ImgBackend) : List ImgAction × Bool × Option PyExc :=
  let clone_master := params.pyGet "clone_master"
  let checkStep : List ImgAction × Option PyExc :=
    if clone_master == none then ([.check], be.check_exc)
    else if clone_master == some "yes" then
      match pySplitOpt (params.pyGet "master_images_clone") with
      | .error e => ([], some e)
      | .ok cl => if image_name ∈ cl then ([.check], be.check_exc) else ([], none)
    else ([], none)
  match checkStep with
  | (t1, some e) => (t1, false, some e)
  | (t1, none) =>
    if params.pyGetD "backup_image" "no" == "yes" then
      match be.backup_exc with
      | some e => (t1 ++ [.backup], false, some e)
      | none => (t1 ++ [.backup], true, none)
    else if params.pyGetD "restore_image" "no" == "yes" then
      match be.restore_exc with
      | some e => (t1 ++ [.restore], false, some e)
      | none => (t1 ++ [.restore], true, none)
    else (t1, false, none)

/-- The `except` clause of `postprocess_image` (lines 311-322): damage
control (`restore_image_on_check_error`, clone-gated
`remove_image_on_check_error`), then either downgrade a "Leaked clusters"
failure to a warning or re-raise. -/
def postprocess_image_handler (params : Params) (image_name : String)
    (be : ImgBackend) (e : PyExc) : List ImgAction × Option PyExc :=
  let (t2, r2) :=
    if params.pyGetD "restore_image_on_check_error" "no" == "yes" then
      ([ImgAction.restore], be.restore_exc)
    else ([], none)
  match r2 with
  | some e2 => (t2, some e2)
  | none =>
    let (t3, r3) :=
      if params.pyGetD "remove_image_on_check_error" "no" == "yes" then
        let cl_images := params.pyGetD "master_images_clone" ""
        if image_name ∈ pySplitWS cl_images then ([ImgAction.remove], be.remove_exc)
        else ([], none)
      else ([], none)
    match r3 with
    | some e3 => (t2 ++ t3, some e3)
    | none =>
      if params.pyGet "skip_cluster_leak_warn" == some "yes" &&
          pyInStr "Leaked clusters" e then
        (t2 ++ t3, none)
      else (t2 ++ t3, some e)

/-- `postprocess_image(test, params, image_name, vm_process_status)`
(lines 256-332): returns the ordered backend actions performed and the
exception propagating out of the call, if any. -/
def postprocess_image (params : Params) (image_name : String)
    (vm_process_status : Option String) (be : ImgBackend) :
    List ImgAction × Option PyExc :=
  let (trace0, check_image_flag) :=
    postprocess_image_running_gate params vm_process_status be
  let (t, restored, raised) :=
    if check_image_flag then postprocess_image_try params image_name be
    else ([], false, none)
  let (t', raised') :=
    match raised with
    | none => (t, none)
    | some e =>
      let (th, rh) := postprocess_image_handler params image_name be e
      (t ++ th, rh)
  match raised' with
  | some e => (trace0 ++ t', some e)
  | none =>
    let (t4, r4) :=
      if !restored && params.pyGetD "restore_image_after_testing" "no" == "yes" then
        ([ImgAction.restore], be.restore_exc)
      else ([], none)
    match r4 with
    | some e => (trace0 ++ t' ++ t4, some e)
    | none =>
      let clone_master := params.pyGet "clone_master"
      let (t5, r5) :=
        if params.pyGet "remove_image" == some "yes" then
          if clone_master == none then ([ImgAction.remove], be.remove_exc)
          else if clone_master == some "yes" then
            match pySplitOpt (params.pyGet "master_images_clone") with
            | .error e => ([], some e)
            | .ok cl =>
              if image_name ∈ cl then ([ImgAction.remove], be.remove_exc)
              else ([], none)
          else ([], none)
        else ([], none)
      (trace0 ++ t' ++ t4 ++ t5, r5)

/-! ## Kernel-cmdline check in `preprocess_vm` -/

/-- The VM state the `check_kernel_cmd_line_from_serial` block consults. -/
structure VmSerialView where
  is_paused : Bool
  is_alive : Bool
  has_serial_console : Bool
  deriving Repr, DecidableEq

/-- What the kernel-cmdline check observably did. -/
inductive CmdLineCheck
  | notChecked
  | skippedNoConsole (msg : String)
  | passed
  | warnedSkipped (err : PyExc)
  deriving Repr, DecidableEq

/-- Scan for the first position where `pat` occurs in `s` and return the
suffix of `s` from there (Python regex scanning for a literal pattern). -/
def scanFirstMatch (pat : List Char) : List Char → Option (List Char)
  | [] => if pat.isPrefixOf ([] : List Char) then some [] else none
  | c :: rest =>
    if pat.isPrefixOf (c :: rest) then some (c :: rest)
    else scanFirstMatch pat rest

/-- `re.findall(cmd_line + ".*", output)[0]`: the text from the first
occurrence of the (literal) pattern to the end of that line; `IndexError`
when there is no occurrence. -/
def findallFirstLineFrom (pat text : String) : Except PyExc String :=
  match scanFirstMatch pat.toList text.toList with
  | none => .error "IndexError"
  | some s => .ok (String.mk (s.takeWhile (fun c => c ≠ '\n')))

/-- The skip conditions checked before reading the serial console
(`preprocess_vm` lines 213-223): the warning message, `""` when the check
can proceed. -/
def serial_skip_msg (vm : VmSerialView) : String :=
  if vm.is_paused then "VM is paused."
  else if !vm.is_alive then "VM is not alive."
  else if !vm.has_serial_console then "There is no serial console in VM."
  else ""

/-- The body of the `try:` block (`preprocess_vm` lines 225-249):
read the serial output, extract the command line, and raise a
`TestError` when a required option is missing or a forbidden one present.
`serial_read` is the oracle for
`vm.serial_console.read_until_output_matches(cmd_line, timeout=60)[1]`
(`.error` models any read failure: no pattern within the timeout, console
errors, ...). -/
def check_kernel_cmd_line_try (params : Params)
    (serial_read : Except PyExc String) : Except PyExc Unit := do
  let cmd_line := params.pyGetD "kernel_cmd_line_str" "Command line:"
  let output ← serial_read
  let kernel_cmd_line ← findallFirstLineFrom cmd_line output
  let kernel_options_exist := params.pyGetD "kernel_options_exist" ""
  let kernel_options_not_exist := params.pyGetD "kernel_options_not_exist" ""
  let err1 := (pySplitWS kernel_options_exist).foldl (fun acc o =>
    if !pyInStr o kernel_cmd_line then
      acc ++ o ++ " not in kernel command line as expect."
    else acc) ""
  let err2 := (pySplitWS kernel_options_not_exist).foldl (fun acc o =>
    if pyInStr o kernel_cmd_line then
      acc ++ o ++ " exist in kernel command line."
    else acc) err1
  if err2 ≠ "" then
    throw (err2 ++ " Kernel command line get from serial output is " ++
      kernel_cmd_line)
  else pure ()

/-- The `check_kernel_cmd_line_from_serial` block of `preprocess_vm`
(lines 212-253). A `.error` result would model an exception propagating
out of `preprocess_vm`; `.ok` models a normal return. The `try:` body runs
under `except Exception`, which catches and warns. -/
def check_kernel_cmd_line_from_serial (params : Params) (vm : VmSerialView)
    (serial_read : Except PyExc String) : Except PyExc CmdLineCheck :=
  if params.pyGet "check_kernel_cmd_line_from_serial" == some "yes" then
    if serial_skip_msg vm ≠ "" then
      .ok (.skippedNoConsole
        (serial_skip_msg vm ++ " Skip the kernel command line check."))
    else
      match check_kernel_cmd_line_try params serial_read with
      | .ok _ => .ok .passed
      | .error err => .ok (.warnedSkipped err)
  else .ok .notChecked

/-! ## Background poller cancellation protocol -/

/-- What a poller observes of its termination event at an iteration
boundary: the shared module-level reference may hold `None` (`deleted`) or
an event that is set or unset. -/
inductive EvObs
  | deleted
  | evSet
  | evUnset
  deriving Repr, DecidableEq

/-- One iteration-boundary check of `_take_screendumps` (lines 1246-1253):
the new value of the shared `_screendump_thread_termination_event`
reference (`none` models Python `None`) and whether the loop breaks. On
`evUnset` the poller performs the interruptible `wait(delay)` and loops
again. -/
def screendump_boundary_check : EvObs → Option Bool × Bool
  | .deleted => (none, true)
  | .evSet => (none, true)
  | .evUnset => (some false, false)

/-- The corresponding check of `_store_vm_register` (lines 1341-1350):
additionally reports the miss-count summary on both exit paths. Components:
new shared reference, whether the loop breaks, whether `report_result` ran. -/
def vm_register_boundary_check : EvObs → Option Bool × Bool × Bool
  | .deleted => (none, true, true)
  | .evSet => (none, true, true)
  | .evUnset => (some false, false, false)

/-- Run a poller's boundary protocol from boundary `i` with `fuel`
iterations available; `obs n` is the event state observed at boundary `n`.
Returns the boundary at which the loop exits and the final value of the
shared reference (or `none` when it does not exit within `fuel`). -/
def runPollerBoundary (obs : Nat → EvObs) : Nat → Nat → Option (Nat × Option Bool)
  | _, 0 => none
  | i, fuel + 1 =>
    let r := screendump_boundary_check (obs i)
    if r.2 then some (i, r.1) else runPollerBoundary obs (i + 1) fuel

/-! ## Screendump per-VM iteration (dedup cache, inactivity clock) -/

/-- Per-VM mutable state of the screendump loop (`counter[vm.instance]`,
`inactivity[vm.instance]`). -/
structure SDVmState where
  counter : Nat
  inactivity : Nat
  deriving Repr, DecidableEq

/-- The loop-scoped dedup cache (`cache`): content fingerprint → path of
the first-seen rendering. -/
abbrev SDCache := List (String × String)

/-- Observable effects of one per-VM screendump iteration. -/
inductive SDEvent
  | screendumpCall
  | inactiveLogged
  | inactiveErrorRecorded
  | hardLink (src dst : String)
  | jpegEncode (dst : String)
  | encodeFailWarned
  | unlinkTemp
  deriving Repr, DecidableEq

/-- What capturing one frame produced, as observed by the loop body. -/
inductive FrameCapture
  | monitorError
  | missingFile
  | invalidImage
  | frame (hash : String) (encode_ok : Bool)
  deriving Repr, DecidableEq

/-- `"%04d.jpg" % counter`. -/
def frameName (n : Nat) : String :=
  let s := toString n
  String.mk (List.replicate (4 - s.length) '0') ++ s ++ ".jpg"

/-- The per-VM body of `_take_screendumps`'s loop (lines 1177-1244) for one
alive VM: capture, validate, dedup/hard-link with inactivity detection, or
re-encode. `now` is `time.time()` for this iteration. -/
def screendump_vm_step (inactivity_treshold : Nat) (inactivity_watcher : String)
    (pil : Bool) (now : Nat) (cap : FrameCapture) (st : SDVmState)
    (cache : SDCache) : SDVmState × SDCache × List SDEvent :=
  match cap with
  | .monitorError => (st, cache, [.screendumpCall])
  | .missingFile => (st, cache, [.screendumpCall])
  | .invalidImage => (st, cache, [.screendumpCall, .unlinkTemp])
  | .frame image_hash encode_ok =>
    let counter' := st.counter + 1
    let screendump_filename := frameName counter'
    match pyDictGet cache image_hash with
    | some cached =>
      let time_inactive := now - st.inactivity
      let (st2, evs) :=
        if time_inactive > inactivity_treshold then
          if inactivity_watcher == "error" then
            ({ counter := counter', inactivity := now }, [SDEvent.inactiveErrorRecorded])
          else if inactivity_watcher == "log" then
            ({ counter := counter', inactivity := st.inactivity }, [SDEvent.inactiveLogged])
          else ({ counter := counter', inactivity := st.inactivity }, [])
        else ({ counter := counter', inactivity := st.inactivity }, [])
      (st2, cache,
        [SDEvent.screendumpCall] ++ evs ++
          [SDEvent.hardLink cached screendump_filename, SDEvent.unlinkTemp])
    | none =>
      if pil then
        if encode_ok then
          ({ counter := counter', inactivity := now },
            cache ++ [(image_hash, screendump_filename)],
            [.screendumpCall, .jpegEncode screendump_filename, .unlinkTemp])
        else
          ({ counter := counter' - 1, inactivity := now }, cache,
            [.screendumpCall, .encodeFailWarned, .unlinkTemp])
      else
        ({ counter := counter', inactivity := now }, cache,
          [.screendumpCall, .unlinkTemp])

/-- Iterate `screendump_vm_step` over a sequence of (timestamp, capture)
pairs, accumulating the event trace. -/
def screendump_vm_run (inactivity_treshold : Nat) (inactivity_watcher : String)
    (pil : Bool) (frames : List (Nat × FrameCapture)) (st : SDVmState)
    (cache : SDCache) : SDVmState × SDCache × List SDEvent :=
  match frames with
  | [] => (st, cache, [])
  | f :: rest =>
    let r := screendump_vm_step inactivity_treshold inactivity_watcher pil f.1 f.2 st cache
    let r2 := screendump_vm_run inactivity_treshold inactivity_watcher pil rest r.1 r.2.1
    (r2.1, r2.2.1, r.2.2 ++ r2.2.2)

/-! ## Register poller per-VM iteration and exit summary -/

/-- Oracle for one register-poller iteration on one VM: whether the VM is
alive, and whether `store_vm_register` succeeds (monitor/attribute errors
make it return `False`). -/
structure RegObs where
  alive : Bool
  store_ok : Bool
  deriving Repr, DecidableEq

/-- Per-VM state of `_store_vm_register`: the log sequence number
(`counter[vm.instance]`, first initialised to 1 when the VM is first seen
alive) and the consecutive-miss counter
(`vm_register_error_count[vm.instance]`). -/
structure RegVmState where
  counter : Option Nat
  error_count : Nat
  deriving Repr, DecidableEq

/-- Observable per-iteration effects of the register poller on one VM. -/
inductive RegEvent
  | notAliveWarned
  | aliveAgainLogged
  | registerStored
  deriving Repr, DecidableEq

/-- The per-VM body of `_store_vm_register`'s loop (lines 1308-1339). -/
def _store_vm_register_vm_step (o : RegObs) (st : RegVmState) :
    RegVmState × List RegEvent :=
  if !o.alive then
    let evs := if st.error_count < 1 then [RegEvent.notAliveWarned] else []
    ({ st with error_count := st.error_count + 1 }, evs)
  else
    let counter1 := st.counter.getD 1
    let stored_log := o.store_ok
    let evs1 := if st.error_count ≥ 1 then [RegEvent.aliveAgainLogged] else []
    let error_count' := if st.error_count ≥ 1 then 0 else st.error_count
    let counter' := if stored_log then counter1 + 1 else counter1
    ({ counter := some counter', error_count := error_count' },
      evs1 ++ if stored_log then [RegEvent.registerStored] else [])

/-- Iterate `_store_vm_register_vm_step` over a sequence of observations. -/
def _store_vm_register_vm_run (obs : List RegObs) (st : RegVmState) :
    RegVmState × List RegEvent :=
  match obs with
  | [] => (st, [])
  | o :: rest =>
    let r := _store_vm_register_vm_step o st
    let r2 := _store_vm_register_vm_run rest r.1
    (r2.1, r.2 ++ r2.2)

/-- `report_result` (lines 1292-1301) mentions a VM in the thread-exit
summary iff its recorded miss count is positive. -/
def report_result_includes_vm (results_count : Nat) : Bool :=
  decide (results_count > 0)

/-- A register-poller observation of a dead VM. -/
def deadObs : RegObs := { alive := false, store_ok := false }

/-- A register-poller observation of an alive VM whose register query
succeeds. -/
def aliveObs : RegObs := { alive := true, store_ok := true }

/-! ## Kernel-cmdline patch workflow (`preprocess` lines 747-801,
`postprocess` lines 1045-1068) -/

/-- Modelled from the spec: `utils_disk.GuestFSModiDisk`, the Guest
filesystem editor collaborator, is not among the sources here. Per §4.5 of
the spec the editor reads the guest boot configuration file, the kernel
command-line entry is located by a line pattern (`re.findall(...)[0]`, the
first matching line of the file content with the default line-anchored
pattern), and `replace_image_file_content(grub_file, old, new)` overwrites
the located line with the replacement. The boot file is modelled as its
list of lines; replacement rewrites every line equal to `old`. -/
def replace_image_file_content (file : List String) (old new : String) :
    List String :=
  file.map (fun l => if l = old then new else l)

/-- `re.findall(kernel_cfg_pos_reg, content)[0]` with the default
line-anchored pattern `.*vmlinuz-\d+.*`: the first line satisfying the
pattern (`matchesLine`). -/
def findKernelConfigLine (matchesLine : String → Bool) (file : List String) :
    Option String :=
  file.find? matchesLine

/-- The module globals `kernel_modified` / `kernel_cmdline`. -/
structure KernelPatchGlobals where
  kernel_modified : Bool
  kernel_cmdline : Option String
  deriving Repr, DecidableEq

/-- The kernel-cmdline patch step of `preprocess` (lines 747-801), given
the per-token command-line transformation (`utils_misc.add_ker_cmd` /
`rm_ker_cmd` folded over `kernel_extra_params_add` and
`kernel_extra_params_remove`) as `transform`. Raises `TestError` when the
pattern matches no line; patches the file and records the globals only when
the computed line differs (after `strip()`) from the original. -/
def preprocess_kernel_patch (matchesLine : String → Bool)
    (transform : String → String) (file : List String)
    (g : KernelPatchGlobals) : Except PyExc (List String × KernelPatchGlobals) :=
  match findKernelConfigLine matchesLine file with
  | none => .error "Cannot find the kernel config"
  | some kernel_config =>
    let kernel_config_set := transform kernel_config
    if pyStrip kernel_config_set ≠ pyStrip kernel_config then
      .ok (replace_image_file_content file kernel_config kernel_config_set,
        { kernel_modified := true, kernel_cmdline := some kernel_config })
    else .ok (file, { g with kernel_cmdline := some kernel_config })

/-- The kernel-cmdline restore step of `postprocess` (lines 1045-1068):
when a patch is pending and `restore_kernel_cmd` is `"yes"` (its default),
re-locate the current line by the same pattern, overwrite it with the saved
original and clear the pending flag. -/
def postprocess_kernel_restore (matchesLine : String → Bool)
    (restore_kernel_cmd_yes : Bool) (file : List String)
    (g : KernelPatchGlobals) : Except PyExc (List String × KernelPatchGlobals) :=
  if g.kernel_modified && restore_kernel_cmd_yes then
    match findKernelConfigLine matchesLine file with
    | none => .error "Cannot find the kernel config"
    | some kernel_config =>
      .ok (replace_image_file_content file kernel_config (g.kernel_cmdline.getD ""),
        { kernel_modified := false, kernel_cmdline := g.kernel_cmdline })
  else .ok (file, g)

/-! ## Per-VM image processing in `process()` (lines 509-533) -/

/-- The VM-handle state visible to `process`'s image dispatch. -/
structure VMHandle where
  alive : Bool
  paused : Bool
  deriving Repr, DecidableEq

/-- Observable actions of `_call_image_func`. -/
inductive ProcEvent
  | pauseVm (name : String)
  | resumeVm (name : String)
  | processImagesFor (name : Option String) (vm_process_status : Option String)
      (skip_cluster_leak_warn : Bool)
  deriving Repr, DecidableEq

/-- One iteration of `_call_image_func`'s per-VM loop (lines 514-531) for
VM `name`: derive `vm_process_status`, pause a live unpaused VM (setting
`skip_cluster_leak_warn` in its scoped params), call `process_images`, and
resume in the `finally`. `img_exc` is the exception `process_images` raises
for this VM, if any. -/
def process_vm_images_step (name : String) (vm : Option VMHandle)
    (img_exc : Option PyExc) : Option VMHandle × List ProcEvent × Option PyExc :=
  let vm_process_status : Option String :=
    match vm with
    | none => some "dead"
    | some h => if !h.alive then some "dead" else some "running"
  let do_pause :=
    match vm with
    | some h => h.alive && !h.paused
    | none => false
  let vm1 := if do_pause then vm.map (fun h => { h with paused := true }) else vm
  let vm2 := if do_pause then vm1.map (fun h => { h with paused := false }) else vm1
  let evs :=
    (if do_pause then [ProcEvent.pauseVm name] else []) ++
    [ProcEvent.processImagesFor (some name) vm_process_status do_pause] ++
    (if do_pause then [ProcEvent.resumeVm name] else [])
  (vm2, evs, img_exc)

/-- The per-VM loop of `_call_image_func`: stops (propagating) at the first
VM whose image processing raises; the VMs after it are left untouched. -/
def _call_image_func_go (img_exc : String → Option PyExc) :
    List (String × Option VMHandle) →
    List (String × Option VMHandle) × List ProcEvent × Option PyExc
  | [] => ([], [], none)
  | (name, vm) :: rest =>
    let r := process_vm_images_step name vm (img_exc name)
    match r.2.2 with
    | some e => ((name, r.1) :: rest, r.2.1, some e)
    | none =>
      let r2 := _call_image_func_go img_exc rest
      ((name, r.1) :: r2.1, r.2.1 ++ r2.2.1, r2.2.2)

/-- `_call_image_func` (lines 509-533): skip entirely when
`skip_image_processing == "yes"`; with no VMs configured run
`process_images` once on the plain params; otherwise run the per-VM loop. -/
def _call_image_func (skip_image_processing : Bool)
    (vms : List (String × Option VMHandle)) (img_exc : String → Option PyExc) :
    List (String × Option VMHandle) × List ProcEvent × Option PyExc :=
  if skip_image_processing then (vms, [], none)
  else if vms.isEmpty then (vms, [ProcEvent.processImagesFor none none false], none)
  else _call_image_func_go img_exc vms

/-- A concrete 21-image params map used to exercise the parallel path. -/
def imgs21 : Params :=
  [("images",
    "i01 i02 i03 i04 i05 i06 i07 i08 i09 i10 i11 i12 i13 i14 i15 i16 i17 i18 i19 i20 i21")]

/-- Params for the C3 clone-gating scenario: `clone_master="yes"`, a given
clone list, and all five action flags set to `"yes"`. -/
def c3params (cl : String) : Params :=
  [("clone_master", "yes"), ("master_images_clone", cl),
   ("check_image", "yes"), ("backup_image", "yes"), ("restore_image", "yes"),
   ("restore_image_after_testing", "yes"), ("remove_image", "yes")]

/-- An image backend oracle on which every operation succeeds and
`image.info()` returns nothing. -/
def okBackend : ImgBackend :=
  { info_output := none, check_exc := none, backup_exc := none,
    restore_exc := none, remove_exc := none }

/-! ## Helper lemmas -/

lemma slice_pred_iff {i k j : Nat} (hik : i < k) :
    (i ≤ j ∧ (j - i) % k = 0) ↔ j % k = i := by
  constructor
  · rintro ⟨hij, hmod⟩
    obtain ⟨m, hm⟩ := Nat.dvd_of_mod_eq_zero hmod
    have hj : j = i + k * m := by omega
    subst hj
    simp [Nat.add_mul_mod_self_left, Nat.mod_eq_of_lt hik]
  · intro h
    have h1 : j % k ≤ j := Nat.mod_le j k
    have h2 : k * (j / k) + j % k = j := Nat.div_add_mod j k
    constructor
    · omega
    · have h3 : j - i = k * (j / k) := by omega
      rw [h3]
      exact Nat.mul_mod_right k (j / k)

lemma filterMap_get?_range (l : List α) :
    (List.range l.length).filterMap l.get? = l := by
  induction l with
  | nil => simp
  | cons x xs ih =>
      simp only [List.length_cons, List.range_succ_eq_map, List.filterMap_cons,
        List.filterMap_map]
      simpa using ih

lemma sum_map_ite_eq (c v k : Nat) :
    ((List.range k).map (fun i => if c = i then v else 0)).sum
      = if c < k then v else 0 := by
  induction k with
  | zero => simp
  | succ k ih =>
      rw [List.range_succ, List.map_append, List.sum_append, ih]
      simp only [List.map_cons, List.map_nil, List.sum_cons, List.sum_nil]
      by_cases h1 : c < k
      · have h2 : c ≠ k := by omega
        simp [h1, h2, Nat.lt_succ_of_lt h1]
      · by_cases h2 : c = k
        · simp [h1, h2]
        · have h3 : ¬ c < k + 1 := by omega
          simp [h1, h2, h3]

lemma stride_indices_perm (N k : Nat) (hk : 0 < k) :
    ((List.range k).map (fun i => (List.range N).filter (fun j => j % k == i))).flatten.Perm
      (List.range N) := by
  rw [← List.flatMap_def]
  rw [List.perm_iff_count]
  intro x
  rw [List.count_flatMap]
  have hterm : ∀ i, (List.count x ∘ fun i => (List.range N).filter (fun j => j % k == i)) i
      = if x % k = i then List.count x (List.range N) else 0 := by
    intro i
    simp only [Function.comp_apply]
    by_cases h : x % k = i
    · have hcf := List.count_filter (p := fun j => j % k == i) (a := x)
        (l := List.range N) (show ((fun j => j % k == i) x) = true by simp [h])
      rw [hcf]
      simp [h]
    · have hnm : x ∉ (List.range N).filter (fun j => j % k == i) := by
        simp only [List.mem_filter, beq_iff_eq]
        tauto
      rw [List.count_eq_zero.mpr hnm]
      simp [h]
  rw [List.map_congr_left (fun i _ => hterm i)]
  rw [sum_map_ite_eq]
  have hxk : x % k < k := Nat.mod_lt x hk
  simp [hxk]

lemma pySliceStride_eq_mod (l : List α) {i k : Nat} (hik : i < k) :
    pySliceStride l i k
      = ((List.range l.length).filter (fun j => j % k == i)).filterMap l.get? := by
  unfold pySliceStride
  congr 1
  apply List.filter_congr
  intro j _
  rw [Bool.eq_iff_iff]
  simp only [Bool.and_eq_true, decide_eq_true_eq, beq_iff_eq]
  exact slice_pred_iff hik

lemma pySliceStride_sublist (l : List α) (i k : Nat) :
    (pySliceStride l i k).Sublist l := by
  unfold pySliceStride
  have h1 := List.filter_sublist (p := fun j => decide (i ≤ j) && decide ((j - i) % k = 0))
    (List.range l.length)
  have h2 := h1.filterMap l.get?
  rw [filterMap_get?_range] at h2
  exact h2

lemma slices_flatten_perm (l : List α) (k : Nat) (hk : 0 < k) :
    ((List.range k).map (fun i => pySliceStride l i k)).flatten.Perm l := by
  have hmap : (List.range k).map (fun i => pySliceStride l i k)
      = (List.range k).map (fun i =>
          ((List.range l.length).filter (fun j => j % k == i)).filterMap l.get?) := by
    apply List.map_congr_left
    intro i hi
    exact pySliceStride_eq_mod l (List.mem_range.mp hi)
  rw [hmap]
  have hfm := List.filterMap_flatten l.get?
    ((List.range k).map (fun i => (List.range l.length).filter (fun j => j % k == i)))
  rw [List.map_map] at hfm
  simp only [Function.comp_def] at hfm
  rw [← hfm]
  have hperm := (stride_indices_perm l.length k hk).filterMap l.get?
  rw [filterMap_get?_range] at hperm
  exact hperm

lemma serial_all_success (image_func : ImageFunc) (exit_obs : List Bool)
    (images : List String) (h : ∀ img ∈ images, image_func img = none) :
    _process_images_serial image_func false exit_obs images = (images, none) := by
  induction images generalizing exit_obs with
  | nil => rfl
  | cons x xs ih =>
      have hx : image_func x = none := h x (by simp)
      simp only [_process_images_serial, hx, Bool.false_and, Bool.false_eq_true,
        if_false]
      rw [ih exit_obs.tail (fun img hm => h img (by simp [hm]))]

lemma serial_nil_obs_exc (image_func : ImageFunc) (images : List String) :
    (_process_images_serial image_func true [] images).2
      = images.findSome? image_func := by
  induction images with
  | nil => rfl
  | cons x xs ih =>
      rw [List.findSome?_cons]
      cases hx : image_func x with
      | some e => simp [_process_images_serial, hx]
      | none => simpa [_process_images_serial, hx] using ih

lemma findSome?_eq_some_first {g : α → Option β} :
    ∀ {l : List α} {b : β}, l.findSome? g = some b →
      ∃ i a, l.get? i = some a ∧ g a = some b ∧
        ∀ j a', j < i → l.get? j = some a' → g a' = none := by
  intro l
  induction l with
  | nil => intro b h; simp [List.findSome?] at h
  | cons x xs ih =>
      intro b h
      rw [List.findSome?_cons] at h
      cases hx : g x with
      | some b0 =>
          rw [hx] at h
          refine ⟨0, x, rfl, ?_, ?_⟩
          · rw [hx]; exact h
          · intro j a' hj _; omega
      | none =>
          rw [hx] at h
          obtain ⟨i, a, hget, hga, hfirst⟩ := ih h
          refine ⟨i + 1, a, hget, hga, ?_⟩
          intro j a' hj hget'
          cases j with
          | zero =>
              simp only [List.get?] at hget'
              cases hget'
              exact hx
          | succ j' => exact hfirst j' a' (by omega) hget'

lemma le_joinTime {d : Nat} : ∀ {ds : List Nat}, d ∈ ds → d ≤ joinTime ds := by
  intro ds
  induction ds with
  | nil => intro h; cases h
  | cons x xs ih =>
      intro h
      rcases List.mem_cons.mp h with h | h
      · subst h; exact Nat.le_max_left _ _
      · exact le_trans (ih h) (Nat.le_max_right _ _)

lemma createImages_run_member_evt (image_func : ImageFunc) (k : Nat)
    (images : List String) :
    ∀ t ∈ (List.range k).map
        (fun i => _CreateImages_run image_func [] (pySliceStride images i k)),
      t.set_exit_event = t.exc_info.isSome := by
  intro t ht
  obtain ⟨i, _, rfl⟩ := List.mem_map.mp ht
  rfl

/-! ## Claim theorems -/

/-- C2: for an image list of length at most 20, `process_images` runs every
image serially on the calling thread in the declared order; for length
`N > 20` it creates exactly `min(N / 5, 2 * cpu_count)` worker partitions,
assigns images round-robin (partition `i` holds exactly the images at
positions congruent to `i` modulo the partition count, in their original
relative order), and every image belongs to exactly one partition. -/
theorem process_images_schedule (params : Params) (cpu_count : Nat)
    (images : List String) (k : Nat)
    (himgs : images = params.objects "images")
    (hk : k = no_threads images cpu_count)
    (hcpu : 1 ≤ cpu_count) :
    (images.length ≤ 20 →
      process_images params cpu_count = .serialPlan images ∧
      ∀ image_func : ImageFunc, (∀ img ∈ images, image_func img = none) →
        _process_images_serial image_func false [] images = (images, none)) ∧
    (20 < images.length →
      ∃ parts, process_images params cpu_count = .parallelPlan parts ∧
        parts.length = min (images.length / 5) (2 * cpu_count) ∧
        (∀ i, i < k → parts.get? i = some (((List.range images.length).filter
            (fun j => j % k == i)).filterMap images.get?)) ∧
        parts.flatten.Perm images ∧
        (∀ part ∈ parts, part.Sublist images)) := by
  subst himgs
  constructor
  · intro h20
    constructor
    · simp only [process_images]
      rw [if_neg (by omega)]
    · intro image_func hall
      exact serial_all_success image_func [] _ hall
  · intro h20
    have hkpos : 0 < k := by
      rw [hk]
      unfold no_threads
      rw [Nat.lt_min]
      omega
    refine ⟨(List.range k).map
      (fun i => pySliceStride (params.objects "images") i k), ?_, ?_, ?_, ?_, ?_⟩
    · simp only [process_images]
      rw [if_pos (by omega), ← hk]
    · rw [List.length_map, List.length_range, hk]
      rfl
    · intro i hik
      rw [List.get?_eq_getElem?, List.getElem?_map, List.getElem?_range
        (by simpa using hik)]
      simp only [Option.map_some']
      rw [pySliceStride_eq_mod _ hik]
    · exact slices_flatten_perm _ k hkpos
    · intro part hp
      obtain ⟨i, _, rfl⟩ := List.mem_map.mp hp
      exact pySliceStride_sublist _ i k

/-- C2 witness: a concrete 21-image list with one CPU splits into
`min(21/5, 2) = 2` round-robin partitions. -/
theorem process_images_schedule_witness :
    ∃ parts, process_images imgs21 1 = SchedulePlan.parallelPlan parts ∧
      parts.length = 2 := by
  obtain ⟨parts, h1, h2, -, -, -⟩ := (process_images_schedule imgs21 1
    (imgs21.objects "images") 2 rfl (by decide) (by omega)).2 (by decide)
  refine ⟨parts, h1, ?_⟩
  rw [h2]
  decide

/-- C1: in the parallel image-processing path each worker stores the first
exception its image function raises in `exc_info` and sets the shared exit
event (rather than re-raising in place); the orchestrator's re-raise point
lies at or after every worker's finish time; nothing is raised iff no
worker stored an exception; and the exception re-raised is the stored
exception of the first failing worker in thread start order. -/
theorem parallel_worker_failure_protocol (image_func : ImageFunc)
    (images : List String) (cpu_count : Nat) (durations : List Nat)
    (k : Nat) (threads : List WorkerOutcome) (run : ParallelRun)
    (hk : k = no_threads images cpu_count)
    (hth : threads = (List.range k).map
      (fun i => _CreateImages_run image_func [] (pySliceStride images i k)))
    (hrun : run = _process_images_parallel image_func images cpu_count
      (fun _ => []) durations) :
    (∀ i t, threads.get? i = some t →
      t.exc_info = (pySliceStride images i k).findSome? image_func ∧
      t.set_exit_event = t.exc_info.isSome) ∧
    (∀ d ∈ durations, d ≤ run.raise_time) ∧
    (run.raised = none ↔ ∀ t ∈ threads, t.exc_info = none) ∧
    (∀ e, run.raised = some e →
      ∃ i t, threads.get? i = some t ∧ t.exc_info = some e ∧
        ∀ j t', j < i → threads.get? j = some t' → t'.exc_info = none) := by
  have hmem := createImages_run_member_evt image_func k images
  rw [← hth] at hmem
  have hraised : run.raised =
      (if threads.any (fun t => t.set_exit_event) then
        threads.findSome? (fun t => t.exc_info)
      else none) := by
    rw [hrun, hth, hk]
    rfl
  refine ⟨?_, ?_, ?_, ?_⟩
  · intro i t ht
    rw [hth, List.get?_eq_getElem?, List.getElem?_map] at ht
    cases hr : (List.range k)[i]? with
    | none => rw [hr] at ht; cases ht
    | some i' =>
        have hi' : i' = i := by
          have := List.getElem?_range (n := k) (m := i)
          by_cases hik : i < k
          · rw [this hik] at hr; cases hr; rfl
          · rw [List.getElem?_eq_none (by simpa using Nat.le_of_not_lt hik)] at hr
            cases hr
        rw [hr] at ht
        simp only [Option.map_some'] at ht
        cases ht
        subst hi'
        exact ⟨serial_nil_obs_exc image_func _, rfl⟩
  · intro d hd
    rw [hrun]
    exact le_joinTime hd
  · rw [hraised]
    by_cases hany : threads.any (fun t => t.set_exit_event)
    · rw [if_pos hany]
      constructor
      · intro hnone t ht
        exact (List.findSome?_eq_none_iff.mp hnone) t ht
      · intro hall
        exact List.findSome?_eq_none_iff.mpr hall
    · rw [if_neg hany]
      simp only [true_iff]
      intro t ht
      have hset : t.set_exit_event = false := by
        by_contra hc
        exact hany (List.any_eq_true.mpr ⟨t, ht, by simpa using hc⟩)
      have hiso := hmem t ht
      rw [hset] at hiso
      cases hx : t.exc_info with
      | none => rfl
      | some e => rw [hx] at hiso; simp at hiso
  · intro e he
    rw [hraised] at he
    by_cases hany : threads.any (fun t => t.set_exit_event)
    · rw [if_pos hany] at he
      obtain ⟨i, t, hget, hgt, hfirst⟩ := findSome?_eq_some_first he
      exact ⟨i, t, hget, hgt, hfirst⟩
    · rw [if_neg hany] at he
      cases he

/-- C1 witness: with 21 images on one CPU (two partitions) and image
functions failing in both partitions, the exception re-raised is the one
stored by worker 0, the first failing worker in start order. -/
theorem parallel_worker_failure_protocol_witness :
    ∃ i t,
      ((List.range 2).map (fun i => _CreateImages_run
        (fun img => if img = "i03" then some "boom3"
          else if img = "i02" then some "boom2" else none) []
        (pySliceStride (imgs21.objects "images") i 2))).get? i = some t ∧
      t.exc_info = some "boom3" ∧
      ∀ j t', j < i →
        ((List.range 2).map (fun i => _CreateImages_run
          (fun img => if img = "i03" then some "boom3"
            else if img = "i02" then some "boom2" else none) []
          (pySliceStride (imgs21.objects "images") i 2))).get? j = some t' →
        t'.exc_info = none := by
  exact (parallel_worker_failure_protocol
    (fun img => if img = "i03" then some "boom3"
      else if img = "i02" then some "boom2" else none)
    (imgs21.objects "images") 1 [3, 5] 2 _ _ (by decide) rfl rfl).2.2.2
    "boom3" (by decide)

/-- Under the C3 params the `try:` block skips the clone-gated check and
goes straight to the backup. -/
lemma c3_try_eq (image_name cl : String) (be : ImgBackend)
    (hnotin : image_name ∉ pySplitWS cl) :
    postprocess_image_try (c3params cl) image_name be =
      match be.backup_exc with
      | some e => ([ImgAction.backup], false, some e)
      | none => ([ImgAction.backup], true, none) := by
  unfold postprocess_image_try
  simp +decide only [show Params.pyGet (c3params cl) "clone_master" = some "yes" from rfl,
    show Params.pyGet (c3params cl) "master_images_clone" = some cl from rfl,
    show Params.pyGetD (c3params cl) "backup_image" "no" = "yes" from rfl,
    pySplitOpt, hnotin]
  cases be.backup_exc <;> rfl

/-- The `except` clause under the C3 params performs no damage control and
re-raises. -/
lemma c3_handler_eq (image_name cl : String) (be : ImgBackend) (e : PyExc) :
    postprocess_image_handler (c3params cl) image_name be e = ([], some e) := rfl

/-- The running-status gate under the C3 params only ever queries
`image.info()`. -/
lemma c3_gate_trace (cl : String) (st : Option String) (be : ImgBackend) :
    ∀ a ∈ (postprocess_image_running_gate (c3params cl) st be).1,
      a = ImgAction.infoQuery := by
  intro a ha
  unfold postprocess_image_running_gate at ha
  by_cases h1 : (st == some "running" &&
      ((c3params cl).pyGet "check_image" == some "yes")) = true
  · rw [if_pos h1] at ha
    by_cases h2 : ((c3params cl).pyGet "skip_image_check_during_running"
        == some "yes") = true
    · rw [if_pos h2] at ha; simp at ha
    · rw [if_neg h2] at ha
      cases hio : be.info_output with
      | none => rw [hio] at ha; simpa using ha
      | some out =>
          rw [hio] at ha
          by_cases h3 : (pyDictGet (parseImageInfo out) "lazy refcounts"
              == some "true") = true <;>
            simp [h3] at ha <;> exact ha
  · rw [if_neg h1] at ha; simp at ha

/-- Characterisation of `postprocess_image` under the C3 params. -/
lemma c3_eq (image_name cl : String) (st : Option String) (be : ImgBackend)
    (hnotin : image_name ∉ pySplitWS cl) :
    postprocess_image (c3params cl) image_name st be =
      (let g := postprocess_image_running_gate (c3params cl) st be
       if g.2 then
         match be.backup_exc with
         | some e => (g.1 ++ [ImgAction.backup], some e)
         | none => (g.1 ++ [ImgAction.backup], none)
       else
         match be.restore_exc with
         | some e => (g.1 ++ [ImgAction.restore], some e)
         | none => (g.1 ++ [ImgAction.restore], none)) := by
  unfold postprocess_image
  generalize hg : postprocess_image_running_gate (c3params cl) st be = g
  obtain ⟨trace0, flag⟩ := g
  rw [c3_try_eq image_name cl be hnotin]
  cases flag
  · cases hre : be.restore_exc <;>
      simp +decide [pySplitOpt, hnotin, c3params, Params.pyGet, Params.pyGetD]
  · cases hbe : be.backup_exc
    · simp +decide [pySplitOpt, hnotin, c3params, Params.pyGet, Params.pyGetD,
        c3_handler_eq]
    · simp only [if_true]
      rw [c3_handler_eq]
      simp

/-- The action trace of `postprocess_image` under the C3 params: the gate
actions followed by exactly one backup (when the check flag survived the
gate) or one restore. -/
lemma c3_trace_eq (image_name cl : String) (st : Option String)
    (be : ImgBackend) (hnotin : image_name ∉ pySplitWS cl) :
    (postprocess_image (c3params cl) image_name st be).1 =
      (postprocess_image_running_gate (c3params cl) st be).1 ++
        (if (postprocess_image_running_gate (c3params cl) st be).2 then
          [ImgAction.backup] else [ImgAction.restore]) := by
  rw [c3_eq image_name cl st be hnotin]
  cases hgf : (postprocess_image_running_gate (c3params cl) st be).2 <;>
    simp only [hgf, if_true, if_false, Bool.false_eq_true]
  · cases be.restore_exc <;> rfl
  · cases be.backup_exc <;> rfl

/-- C3 counterexample: with `clone_master="yes"`, the image absent from the
whitespace-split `master_images_clone` list, and `check_image`,
`backup_image`, `restore_image`, `restore_image_after_testing` and
`remove_image` all `"yes"`, `postprocess_image` still performs a backup of
the image: the action trace is `[backup]`, refuting "performs none of:
integrity check, backup, restore, or removal". -/
theorem postprocess_image_clone_gate_cex :
    (postprocess_image (c3params "other_img") "image1" none okBackend).1
      = [ImgAction.backup] := by decide

/-- C3 (amended): with `clone_master="yes"` and the image not in the
whitespace-split `master_images_clone` list, `postprocess_image` performs
no integrity check and no removal of the image even when all five flags are
`"yes"`; but `backup_image` / `restore_image` /
`restore_image_after_testing` are not gated by the clone set, so a backup
is still performed. -/
theorem postprocess_image_clone_gate (image_name cl : String)
    (vm_process_status : Option String) (be : ImgBackend)
    (hnotin : image_name ∉ pySplitWS cl) :
    ImgAction.check ∉
      (postprocess_image (c3params cl) image_name vm_process_status be).1 ∧
    ImgAction.remove ∉
      (postprocess_image (c3params cl) image_name vm_process_status be).1 ∧
    ImgAction.backup ∈ (postprocess_image (c3params cl) image_name none be).1 := by
  have ht := c3_trace_eq image_name cl vm_process_status be hnotin
  have htn := c3_trace_eq image_name cl none be hnotin
  have hg := c3_gate_trace cl vm_process_status be
  refine ⟨?_, ?_, ?_⟩
  · rw [ht]
    intro hmem
    rcases List.mem_append.mp hmem with hm | hm
    · exact absurd (hg _ hm) (by decide)
    · revert hm
      split <;> simp
  · rw [ht]
    intro hmem
    rcases List.mem_append.mp hmem with hm | hm
    · exact absurd (hg _ hm) (by decide)
    · revert hm
      split <;> simp
  · rw [htn]
    have hflag : (postprocess_image_running_gate (c3params cl) none be).2
        = true := rfl
    rw [hflag]
    simp

/-- C3 witness: the amended statement at a concrete image, clone list,
status and backend. -/
theorem postprocess_image_clone_gate_witness :
    ImgAction.check ∉
      (postprocess_image (c3params "other_img") "image1" (some "running") okBackend).1 ∧
    ImgAction.remove ∉
      (postprocess_image (c3params "other_img") "image1" (some "running") okBackend).1 ∧
    ImgAction.backup ∈
      (postprocess_image (c3params "other_img") "image1" none okBackend).1 :=
  postprocess_image_clone_gate "image1" "other_img" (some "running") okBackend
    (by decide)


/-- C4: the `check_kernel_cmd_line_from_serial` block can never raise: its
`except Exception` clause catches the very `TestError` the option check
raises inside the `try`, so a failed check is downgraded to a warning and
skipped. The second conjunct evaluates the failing input: VM alive and
unpaused with a serial console, command line successfully read, required
option `quiet` missing — the block returns normally with a warning instead
of letting a fatal `TestError` propagate out of `preprocess_vm`. -/
theorem check_kernel_cmd_line_never_fatal :
    (∀ (params : Params) (vm : VmSerialView) (serial_read : Except PyExc String),
      ∃ c, check_kernel_cmd_line_from_serial params vm serial_read = .ok c) ∧
    check_kernel_cmd_line_from_serial
      [("check_kernel_cmd_line_from_serial", "yes"),
       ("kernel_options_exist", "quiet")]
      { is_paused := false, is_alive := true, has_serial_console := true }
      (.ok "Linux version 4.x\nCommand line: root=/dev/vda ro\nfoo") =
      .ok (.warnedSkipped
        ("quiet not in kernel command line as expect." ++
         " Kernel command line get from serial output is " ++
         "Command line: root=/dev/vda ro")) := by
  refine ⟨?_, rfl⟩
  intro params vm serial_read
  unfold check_kernel_cmd_line_from_serial
  split
  · split
    · exact ⟨_, rfl⟩
    · cases check_kernel_cmd_line_try params serial_read <;> exact ⟨_, rfl⟩
  · exact ⟨_, rfl⟩

/-- C5 helper: a poller that sees an unset event for `k` boundary checks
and a set event from check `k` on exits exactly at boundary `k`, nulling
the shared reference. -/
lemma runPollerBoundary_first_set (k : Nat) :
    ∀ (i : Nat) (obs : Nat → EvObs),
      (∀ n, n < k → obs (i + n) = EvObs.evUnset) →
      obs (i + k) = EvObs.evSet →
      runPollerBoundary obs i (k + 1) = some (i + k, none) := by
  induction k with
  | zero =>
      intro i obs _ hset
      unfold runPollerBoundary
      rw [show obs i = EvObs.evSet from hset]
      rfl
  | succ k ih =>
      intro i obs hunset hset
      unfold runPollerBoundary
      rw [show obs i = EvObs.evUnset from by simpa using hunset 0 (by omega)]
      simp only [screendump_boundary_check]
      have hrec := ih (i + 1) obs
        (fun n hn => by
          have := hunset (n + 1) (by omega)
          simpa [Nat.add_assoc, Nat.add_comm 1 n] using this)
        (by
          have : i + 1 + k = i + (k + 1) := by omega
          rw [this]
          exact hset)
      rw [show i + 1 + k = i + (k + 1) from by omega] at hrec
      exact hrec

/-- C5: both background pollers implement the same cancellation protocol;
every loop exit leaves the shared termination-event reference `None` (the
set-observed path nulls it before breaking, the deleted-event path breaks
with it already `None`); and once the event is set the poller exits at the
very next boundary check, i.e. within one iteration/polling delay. -/
theorem poller_termination_protocol :
    (∀ o, (vm_register_boundary_check o).1 = (screendump_boundary_check o).1 ∧
      (vm_register_boundary_check o).2.1 = (screendump_boundary_check o).2) ∧
    (∀ (obs : Nat → EvObs) (i fuel j : Nat) (r : Option Bool),
      runPollerBoundary obs i fuel = some (j, r) → r = none) ∧
    (∀ (k : Nat) (obs : Nat → EvObs),
      (∀ n, obs n = if n < k then EvObs.evUnset else EvObs.evSet) →
      runPollerBoundary obs 0 (k + 1) = some (k, none)) := by
  refine ⟨?_, ?_, ?_⟩
  · intro o
    cases o <;> exact ⟨rfl, rfl⟩
  · intro obs i fuel
    induction fuel generalizing i with
    | zero => intro j r h; cases h
    | succ fuel ih =>
        intro j r h
        unfold runPollerBoundary at h
        cases ho : obs i <;> rw [ho] at h
        · simp only [screendump_boundary_check] at h
          cases h
          rfl
        · simp only [screendump_boundary_check] at h
          cases h
          rfl
        · simp only [screendump_boundary_check] at h
          exact ih (i + 1) j r h
  · intro k obs hobs
    have := runPollerBoundary_first_set k 0 obs
      (fun n hn => by simp only [Nat.zero_add]; rw [hobs n]; simp [hn])
      (by simp only [Nat.zero_add]; rw [hobs k]; simp)
    simpa using this

/-- C5 witness: a poller whose event is set from boundary 2 on exits at
boundary 2 with the shared reference nulled. -/
theorem poller_termination_protocol_witness :
    runPollerBoundary (fun n => if n < 2 then EvObs.evUnset else EvObs.evSet)
      0 3 = some (2, none) :=
  poller_termination_protocol.2.2 2
    (fun n => if n < 2 then EvObs.evUnset else EvObs.evSet) (fun _ => rfl)

/-- C6 counterexample: two consecutive identical frames leave the frame
counter at 2, strictly higher than the 1 a single distinct frame produces —
`counter[vm.instance] += 1` runs before the dedup check and the hard-link
path never decrements it. -/
theorem screendump_dup_counter_cex :
    (screendump_vm_run 1000 "log" true
      [(1, FrameCapture.frame "h" true), (2, FrameCapture.frame "h" true)]
      { counter := 0, inactivity := 0 } []).1.counter = 2 ∧
    (screendump_vm_run 1000 "log" true [(1, FrameCapture.frame "h" true)]
      { counter := 0, inactivity := 0 } []).1.counter = 1 ∧
    ¬ ((screendump_vm_run 1000 "log" true
      [(1, FrameCapture.frame "h" true), (2, FrameCapture.frame "h" true)]
      { counter := 0, inactivity := 0 } []).1.counter ≤
      (screendump_vm_run 1000 "log" true [(1, FrameCapture.frame "h" true)]
      { counter := 0, inactivity := 0 } []).1.counter) := by
  decide

/-- C6 (amended): a frame whose fingerprint is already in the dedup cache
is hard-linked to the cached rendering, no JPEG encode happens for it and
the cache is unchanged; but the frame counter still advances by one for the
duplicate slot (numbering stays contiguous), so two identical frames leave
the counter one higher than a single distinct frame would. -/
theorem screendump_dedup_hardlink (thr : Nat) (watcher : String) (pil : Bool)
    (now : Nat) (hash src : String) (eo : Bool) (st : SDVmState)
    (cache : SDCache) (hc : pyDictGet cache hash = some src) :
    (screendump_vm_step thr watcher pil now (.frame hash eo) st cache).1.counter
      = st.counter + 1 ∧
    SDEvent.hardLink src (frameName (st.counter + 1)) ∈
      (screendump_vm_step thr watcher pil now (.frame hash eo) st cache).2.2 ∧
    (∀ dst, SDEvent.jpegEncode dst ∉
      (screendump_vm_step thr watcher pil now (.frame hash eo) st cache).2.2) ∧
    (screendump_vm_step thr watcher pil now (.frame hash eo) st cache).2.1
      = cache := by
  unfold screendump_vm_step
  simp only [hc]
  refine ⟨?_, ?_, ?_, ?_⟩
  · repeat' split
    all_goals rfl
  · repeat' split
    all_goals simp
  · intro dst
    repeat' split
    all_goals simp
  · trivial

/-- C6 witness: the amended statement at a concrete cached fingerprint. -/
theorem screendump_dedup_hardlink_witness :
    (screendump_vm_step 1000 "log" true 2 (.frame "h" true)
      { counter := 1, inactivity := 1 } [("h", "0001.jpg")]).1.counter = 2 ∧
    SDEvent.hardLink "0001.jpg" (frameName 2) ∈
      (screendump_vm_step 1000 "log" true 2 (.frame "h" true)
        { counter := 1, inactivity := 1 } [("h", "0001.jpg")]).2.2 ∧
    (∀ dst, SDEvent.jpegEncode dst ∉
      (screendump_vm_step 1000 "log" true 2 (.frame "h" true)
        { counter := 1, inactivity := 1 } [("h", "0001.jpg")]).2.2) ∧
    (screendump_vm_step 1000 "log" true 2 (.frame "h" true)
      { counter := 1, inactivity := 1 } [("h", "0001.jpg")]).2.1
      = [("h", "0001.jpg")] :=
  screendump_dedup_hardlink 1000 "log" true 2 "h" "0001.jpg" true
    { counter := 1, inactivity := 1 } [("h", "0001.jpg")] (by decide)

/-- C7 counterexample: under the `"log"` policy a continuous run of
duplicate frames past the threshold fires the inactivity log at every
duplicate frame (twice here for one breach) and never resets the
inactivity clock. -/
theorem screendump_inactivity_log_cex :
    ((screendump_vm_run 10 "log" true
      [(0, FrameCapture.frame "h" true), (11, FrameCapture.frame "h" true),
       (12, FrameCapture.frame "h" true)]
      { counter := 0, inactivity := 0 } []).2.2.count
        SDEvent.inactiveLogged) = 2 ∧
    (screendump_vm_run 10 "log" true
      [(0, FrameCapture.frame "h" true), (11, FrameCapture.frame "h" true),
       (12, FrameCapture.frame "h" true)]
      { counter := 0, inactivity := 0 } []).1.inactivity = 0 := by
  decide

/-- C7 (amended): for a duplicate frame whose inactivity time exceeds the
threshold, the `"error"` policy records the non-fatal error exactly once
and resets the inactivity clock to the current time (so it does not fire
again until the threshold is exceeded anew); the `"log"` policy emits the
log entry but leaves the clock unchanged, so the entry repeats at every
further duplicate frame while the threshold stays exceeded. -/
theorem screendump_inactivity_policy (thr now : Nat) (pil : Bool)
    (hash src : String) (eo : Bool) (st : SDVmState) (cache : SDCache)
    (hc : pyDictGet cache hash = some src)
    (hfire : now - st.inactivity > thr) :
    ((screendump_vm_step thr "error" pil now (.frame hash eo) st cache).2.2.count
        SDEvent.inactiveErrorRecorded = 1 ∧
     (screendump_vm_step thr "error" pil now (.frame hash eo) st cache).1.inactivity
        = now ∧
     (∀ now2, now2 - now ≤ thr →
       ((screendump_vm_step thr "error" pil now2 (.frame hash eo)
         (screendump_vm_step thr "error" pil now (.frame hash eo) st cache).1
         cache).2.2.count SDEvent.inactiveErrorRecorded) = 0)) ∧
    ((screendump_vm_step thr "log" pil now (.frame hash eo) st cache).2.2.count
        SDEvent.inactiveLogged = 1 ∧
     (screendump_vm_step thr "log" pil now (.frame hash eo) st cache).1.inactivity
        = st.inactivity) := by
  have herr : screendump_vm_step thr "error" pil now (.frame hash eo) st cache
      = ({ counter := st.counter + 1, inactivity := now }, cache,
        [SDEvent.screendumpCall, SDEvent.inactiveErrorRecorded,
         SDEvent.hardLink src (frameName (st.counter + 1)), SDEvent.unlinkTemp]) := by
    unfold screendump_vm_step
    simp only [hc]
    rw [if_pos hfire]
    rfl
  have hlog : screendump_vm_step thr "log" pil now (.frame hash eo) st cache
      = ({ counter := st.counter + 1, inactivity := st.inactivity }, cache,
        [SDEvent.screendumpCall, SDEvent.inactiveLogged,
         SDEvent.hardLink src (frameName (st.counter + 1)), SDEvent.unlinkTemp]) := by
    unfold screendump_vm_step
    simp only [hc]
    rw [if_pos hfire]
    rfl
  refine ⟨⟨?_, ?_, ?_⟩, ?_, ?_⟩
  · rw [herr]
    simp [List.count_cons]
  · rw [herr]
  · intro now2 h2
    rw [herr]
    unfold screendump_vm_step
    simp only [hc]
    rw [if_neg (show ¬ (now2 - now > thr) from by omega)]
    simp [List.count_cons]
  · rw [hlog]
    simp [List.count_cons]
  · rw [hlog]

/-- C7 witness: the amended statement at a concrete over-threshold
duplicate frame. -/
theorem screendump_inactivity_policy_witness :
    ((screendump_vm_step 10 "error" true 11 (.frame "h" true)
        { counter := 1, inactivity := 0 } [("h", "0001.jpg")]).2.2.count
        SDEvent.inactiveErrorRecorded = 1 ∧
     (screendump_vm_step 10 "error" true 11 (.frame "h" true)
        { counter := 1, inactivity := 0 } [("h", "0001.jpg")]).1.inactivity
        = 11 ∧
     (∀ now2, now2 - 11 ≤ 10 →
       ((screendump_vm_step 10 "error" true now2 (.frame "h" true)
         (screendump_vm_step 10 "error" true 11 (.frame "h" true)
           { counter := 1, inactivity := 0 } [("h", "0001.jpg")]).1
         [("h", "0001.jpg")]).2.2.count SDEvent.inactiveErrorRecorded) = 0)) ∧
    ((screendump_vm_step 10 "log" true 11 (.frame "h" true)
        { counter := 1, inactivity := 0 } [("h", "0001.jpg")]).2.2.count
        SDEvent.inactiveLogged = 1 ∧
     (screendump_vm_step 10 "log" true 11 (.frame "h" true)
        { counter := 1, inactivity := 0 } [("h", "0001.jpg")]).1.inactivity
        = 0) :=
  screendump_inactivity_policy 10 11 true "h" "0001.jpg" true
    { counter := 1, inactivity := 0 } [("h", "0001.jpg")] (by decide)
    (by decide)

/-- Running the register poller body over concatenated observation lists
composes. -/
lemma _store_vm_register_vm_run_append (l1 l2 : List RegObs)
    (st : RegVmState) :
    _store_vm_register_vm_run (l1 ++ l2) st =
      ((_store_vm_register_vm_run l2 (_store_vm_register_vm_run l1 st).1).1,
       (_store_vm_register_vm_run l1 st).2 ++
         (_store_vm_register_vm_run l2 (_store_vm_register_vm_run l1 st).1).2) := by
  induction l1 generalizing st with
  | nil => simp [_store_vm_register_vm_run]
  | cons o rest ih =>
      simp only [List.cons_append, _store_vm_register_vm_run]
      rw [show rest.append l2 = rest ++ l2 from rfl, ih]
      simp [List.append_assoc]

/-- With an ongoing miss streak, further dead iterations warn nothing and
only grow the streak. -/
lemma _store_vm_register_vm_run_dead (m : Nat) :
    ∀ (st : RegVmState), 1 ≤ st.error_count →
      _store_vm_register_vm_run (List.replicate m deadObs) st =
        ({ st with error_count := st.error_count + m }, []) := by
  induction m with
  | zero => intro st _; simp [_store_vm_register_vm_run]
  | succ m ih =>
      intro st h
      have hstep : _store_vm_register_vm_step deadObs st
          = ({ st with error_count := st.error_count + 1 }, []) := by
        show (({ st with error_count := st.error_count + 1 },
          if st.error_count < 1 then [RegEvent.notAliveWarned] else []) :
          RegVmState × List RegEvent) = _
        rw [if_neg (by omega)]
      rw [List.replicate_succ]
      simp only [_store_vm_register_vm_run]
      rw [hstep]
      rw [ih { st with error_count := st.error_count + 1 } (by simp)]
      simp [Nat.add_assoc, Nat.add_comm 1 m]

/-- C8 counterexample: a VM dead for 3 iterations and then alive again is
warned about exactly once, but its miss counter is reset to 0 on revival,
so `report_result` does not mention it in the thread-exit summary at all —
not "exactly once" as claimed. -/
theorem register_poller_revive_cex :
    ((_store_vm_register_vm_run [deadObs, deadObs, deadObs, aliveObs]
        { counter := none, error_count := 0 }).2.count
      RegEvent.notAliveWarned = 1) ∧
    report_result_includes_vm
      (_store_vm_register_vm_run [deadObs, deadObs, deadObs, aliveObs]
        { counter := none, error_count := 0 }).1.error_count = false := by
  decide

/-- C8 (amended): for a VM that is not alive for `n ≥ 1` consecutive
iterations and then becomes alive, the "not alive" warning is logged
exactly once (on the first missed iteration); on revival the miss counter
is reset to 0 and an "alive now" debug entry is emitted, so the thread-exit
summary does not report the VM at all. -/
theorem register_poller_revive (n : Nat) (hn : 1 ≤ n) :
    (_store_vm_register_vm_run
      (List.replicate n deadObs ++ [aliveObs])
      { counter := none, error_count := 0 }).2.count
        RegEvent.notAliveWarned = 1 ∧
    RegEvent.aliveAgainLogged ∈ (_store_vm_register_vm_run
      (List.replicate n deadObs ++ [aliveObs])
      { counter := none, error_count := 0 }).2 ∧
    (_store_vm_register_vm_run (List.replicate n deadObs ++ [aliveObs])
      { counter := none, error_count := 0 }).1.error_count = 0 ∧
    report_result_includes_vm
      (_store_vm_register_vm_run (List.replicate n deadObs ++ [aliveObs])
        { counter := none, error_count := 0 }).1.error_count = false := by
  obtain ⟨m, rfl⟩ : ∃ m, n = m + 1 := ⟨n - 1, by omega⟩
  have hge : 1 + m ≥ 1 := by omega
  have hstep2 : _store_vm_register_vm_step aliveObs
      { counter := none, error_count := 1 + m }
      = ({ counter := some 2, error_count := 0 },
         [RegEvent.aliveAgainLogged, RegEvent.registerStored]) := by
    show (({ counter := some 2, error_count := if 1 + m ≥ 1 then 0 else 1 + m },
      (if 1 + m ≥ 1 then [RegEvent.aliveAgainLogged] else []) ++
        [RegEvent.registerStored]) : RegVmState × List RegEvent) = _
    rw [if_pos hge, if_pos hge]
    rfl
  have hrun : _store_vm_register_vm_run
      (List.replicate (m + 1) deadObs ++ [aliveObs])
      { counter := none, error_count := 0 } =
      ({ counter := some 2, error_count := 0 },
       [RegEvent.notAliveWarned] ++ ([] ++
         [RegEvent.aliveAgainLogged, RegEvent.registerStored])) := by
    rw [List.replicate_succ, List.cons_append]
    simp only [_store_vm_register_vm_run]
    rw [show _store_vm_register_vm_step deadObs { counter := none, error_count := 0 }
      = ({ counter := none, error_count := 1 }, [RegEvent.notAliveWarned]) from by decide]
    simp only []
    rw [_store_vm_register_vm_run_append]
    rw [_store_vm_register_vm_run_dead m { counter := none, error_count := 1 } (by simp)]
    simp only [_store_vm_register_vm_run]
    rw [show ({ counter := none, error_count := 1 } : RegVmState).error_count + m
      = 1 + m from rfl] at *
    rw [hstep2]
    simp
  rw [hrun]
  refine ⟨?_, ?_, rfl, rfl⟩
  · simp [List.count_cons]
  · simp

/-- C8 witness: the amended statement at `n = 3`. -/
theorem register_poller_revive_witness :
    (_store_vm_register_vm_run
      (List.replicate 3 deadObs ++ [aliveObs])
      { counter := none, error_count := 0 }).2.count
        RegEvent.notAliveWarned = 1 ∧
    RegEvent.aliveAgainLogged ∈ (_store_vm_register_vm_run
      (List.replicate 3 deadObs ++ [aliveObs])
      { counter := none, error_count := 0 }).2 ∧
    (_store_vm_register_vm_run (List.replicate 3 deadObs ++ [aliveObs])
      { counter := none, error_count := 0 }).1.error_count = 0 ∧
    report_result_includes_vm
      (_store_vm_register_vm_run (List.replicate 3 deadObs ++ [aliveObs])
        { counter := none, error_count := 0 }).1.error_count = false :=
  register_poller_revive 3 (by omega)

/-- Re-locating the kernel line after a patch: if `L` was the first
matching line and the patched line still matches, the patched line is the
first match of the patched file. -/
lemma find?_replace_image_file_content {p : String → Bool}
    {file : List String} {L L' : String}
    (hfind : file.find? p = some L) (hL' : p L' = true) :
    (replace_image_file_content file L L').find? p = some L' := by
  induction file with
  | nil => cases hfind
  | cons x xs ih =>
      cases hx : p x with
      | true =>
          rw [List.find?_cons_of_pos _ hx] at hfind
          cases hfind
          unfold replace_image_file_content
          simp only [List.map_cons, if_true, eq_self_iff_true]
          rw [List.find?_cons_of_pos _ hL']
      | false =>
          rw [List.find?_cons_of_neg _ (by simp [hx])] at hfind
          have hxL : x ≠ L := by
            intro hcontra
            subst hcontra
            rw [List.find?_some hfind] at hx
            cases hx
          unfold replace_image_file_content
          simp only [List.map_cons, if_neg hxL]
          rw [List.find?_cons_of_neg _ (by simp [hx])]
          exact ih hfind

/-- Overwriting the patched line with the saved original undoes the patch,
provided no original line already equalled the patched line. -/
lemma replace_image_file_content_roundtrip {file : List String} {L L' : String}
    (hfresh : L' ∉ file) :
    replace_image_file_content (replace_image_file_content file L L') L' L
      = file := by
  unfold replace_image_file_content
  rw [List.map_map]
  conv_rhs => rw [← List.map_id file]
  apply List.map_congr_left
  intro a ha
  simp only [Function.comp_apply, id_eq]
  by_cases haL : a = L
  · subst haL
    rw [if_pos rfl, if_pos rfl]
  · rw [if_neg haL, if_neg (show a ≠ L' from fun hc => hfresh (hc ▸ ha))]

/-- C9: the kernel-cmdline patch workflow round-trips. If `preprocess`
patches the boot configuration — the computed command line differs
(stripped) from the original located line — then it saves the original
line, sets the pending flag, and a `postprocess` restore with no
intervening change overwrites the current (patched) line with the saved
original, clears the flag, and leaves the boot file identical to its
pre-patch content. Side conditions: the pattern matches some line, the
patched line still matches the pattern (so restore can re-locate it), and
no other original line equals the patched line. -/
theorem kernel_cmdline_patch_roundtrip (matchesLine : String → Bool)
    (transform : String → String) (file : List String)
    (g0 : KernelPatchGlobals) (L : String)
    (hfind : file.find? matchesLine = some L)
    (hdiff : pyStrip (transform L) ≠ pyStrip L)
    (hstill : matchesLine (transform L) = true)
    (hfresh : transform L ∉ file) :
    preprocess_kernel_patch matchesLine transform file g0 =
      .ok (replace_image_file_content file L (transform L),
        { kernel_modified := true, kernel_cmdline := some L }) ∧
    postprocess_kernel_restore matchesLine true
      (replace_image_file_content file L (transform L))
      { kernel_modified := true, kernel_cmdline := some L } =
      .ok (file, { kernel_modified := false, kernel_cmdline := some L }) := by
  constructor
  · unfold preprocess_kernel_patch findKernelConfigLine
    rw [hfind]
    simp only []
    rw [if_pos hdiff]
  · unfold postprocess_kernel_restore findKernelConfigLine
    have hcond : (({ kernel_modified := true, kernel_cmdline := some L } :
        KernelPatchGlobals).kernel_modified && true) = true := rfl
    rw [if_pos hcond]
    rw [find?_replace_image_file_content hfind hstill]
    simp only [Option.getD_some]
    rw [replace_image_file_content_roundtrip hfresh]

/-- C9 witness: the round trip on a concrete three-line boot file, adding
`pci=nomsi` to the kernel line. -/
theorem kernel_cmdline_patch_roundtrip_witness :
    preprocess_kernel_patch (fun l => pyInStr "vmlinuz-" l)
      (fun l => l ++ " pci=nomsi")
      ["menuentry gnu", "  linux vmlinuz-5 ro quiet", "initrd16 img"]
      { kernel_modified := false, kernel_cmdline := none } =
      .ok (["menuentry gnu", "  linux vmlinuz-5 ro quiet pci=nomsi",
            "initrd16 img"],
        { kernel_modified := true,
          kernel_cmdline := some "  linux vmlinuz-5 ro quiet" }) ∧
    postprocess_kernel_restore (fun l => pyInStr "vmlinuz-" l) true
      ["menuentry gnu", "  linux vmlinuz-5 ro quiet pci=nomsi", "initrd16 img"]
      { kernel_modified := true,
        kernel_cmdline := some "  linux vmlinuz-5 ro quiet" } =
      .ok (["menuentry gnu", "  linux vmlinuz-5 ro quiet", "initrd16 img"],
        { kernel_modified := false,
          kernel_cmdline := some "  linux vmlinuz-5 ro quiet" }) := by
  have h := kernel_cmdline_patch_roundtrip (fun l => pyInStr "vmlinuz-" l)
    (fun l => l ++ " pci=nomsi")
    ["menuentry gnu", "  linux vmlinuz-5 ro quiet", "initrd16 img"]
    { kernel_modified := false, kernel_cmdline := none }
    "  linux vmlinuz-5 ro quiet"
    (by decide) (by decide) (by decide) (by decide)
  exact ⟨h.1, h.2⟩

/-- One per-VM image-processing step leaves the VM handle's state exactly
as it was: a VM paused by the step is resumed by its `finally`. -/
lemma process_vm_images_step_state (name : String) (vm : Option VMHandle)
    (e : Option PyExc) :
    (process_vm_images_step name vm e).1 = vm := by
  unfold process_vm_images_step
  cases vm with
  | none => rfl
  | some h =>
      by_cases hp : (h.alive && !h.paused) = true
      · simp only [hp, if_pos]
        cases h with
        | mk a p =>
            simp only [Bool.and_eq_true, Bool.not_eq_eq_eq_not, Bool.not_true] at hp
            simp [hp.2]
      · simp [hp]

/-- The per-VM loop leaves the VM list unchanged. -/
lemma _call_image_func_go_state (img_exc : String → Option PyExc) :
    ∀ vms, (_call_image_func_go img_exc vms).1 = vms := by
  intro vms
  induction vms with
  | nil => rfl
  | cons p rest ih =>
      obtain ⟨name, vm⟩ := p
      unfold _call_image_func_go
      cases hr : (process_vm_images_step name vm (img_exc name)).2.2 with
      | some e =>
          simp only [hr]
          rw [process_vm_images_step_state]
      | none =>
          simp only [hr]
          rw [process_vm_images_step_state, ih]

/-- C10: per-VM image processing in `process()` leaves every VM's
paused/running state unchanged (conjunct 1, also across the loop and even
when image processing raises); a VM that is alive and not paused is
paused, gets `skip_cluster_leak_warn="yes"` in its scoped params, has its
images processed with status "running", and is resumed afterwards, in that
order (conjunct 2); any other VM (absent, dead, or already paused) is
neither paused nor resumed (conjunct 3). -/
theorem process_vm_images_frame (skip : Bool)
    (vms : List (String × Option VMHandle)) (img_exc : String → Option PyExc) :
    (_call_image_func skip vms img_exc).1 = vms ∧
    (∀ (name : String) (h : VMHandle) (e : Option PyExc),
      h.alive = true → h.paused = false →
      process_vm_images_step name (some h) e =
        (some h,
         [ProcEvent.pauseVm name,
          ProcEvent.processImagesFor (some name) (some "running") true,
          ProcEvent.resumeVm name], e)) ∧
    (∀ (name : String) (vm : Option VMHandle) (e : Option PyExc),
      (match vm with
       | some h => h.alive && !h.paused
       | none => false) = false →
      ∃ status, process_vm_images_step name vm e =
        (vm, [ProcEvent.processImagesFor (some name) status false], e)) := by
  refine ⟨?_, ?_, ?_⟩
  · unfold _call_image_func
    split
    · rfl
    · split
      · rfl
      · exact _call_image_func_go_state img_exc vms
  · intro name h e halive hpaused
    unfold process_vm_images_step
    cases h with
    | mk a p =>
        simp only at halive hpaused
        subst halive
        subst hpaused
        rfl
  · intro name vm e hnp
    cases vm with
    | none => exact ⟨some "dead", rfl⟩
    | some h =>
        have hnp' : (h.alive && !h.paused) = false := hnp
        refine ⟨if !h.alive then some "dead" else some "running", ?_⟩
        unfold process_vm_images_step
        simp [hnp']

/-- C10 witness: the statement at a concrete two-VM environment (one alive
and unpaused, one dead) with image processing failing for the first VM. -/
theorem process_vm_images_frame_witness :
    (_call_image_func false
      [("vm1", some { alive := true, paused := false }),
       ("vm2", some { alive := false, paused := false })]
      (fun n => if n = "vm1" then some "boom" else none)).1 =
      [("vm1", some { alive := true, paused := false }),
       ("vm2", some { alive := false, paused := false })] ∧
    process_vm_images_step "vm1" (some { alive := true, paused := false })
      (some "boom") =
      (some { alive := true, paused := false },
       [ProcEvent.pauseVm "vm1",
        ProcEvent.processImagesFor (some "vm1") (some "running") true,
        ProcEvent.resumeVm "vm1"], some "boom") ∧
    (∃ status, process_vm_images_step "vm2"
      (some { alive := false, paused := false }) none =
      (some { alive := false, paused := false },
       [ProcEvent.processImagesFor (some "vm2") status false], none)) := by
  have h := process_vm_images_frame false
    [("vm1", some { alive := true, paused := false }),
     ("vm2", some { alive := false, paused := false })]
    (fun n => if n = "vm1" then some "boom" else none)
  exact ⟨h.1,
    h.2.1 "vm1" { alive := true, paused := false } (some "boom") rfl rfl,
    h.2.2 "vm2" (some { alive := false, paused := false }) none (by decide)⟩

end EnvProcess
